import Mathlib

/-!
Verification of `file-unicode-normalizer` (src/main.py), a CLI tool that
reads a file as UTF-8 text, applies a Unicode normalization form, and writes
the result as UTF-8 text to an output path.

The embedding models:
  * a flat filesystem as a map from path strings to nodes (regular file with
    byte content, or directory);
  * Python's strict UTF-8 codec (`encoding='utf-8'`, default strict errors),
    including rejection of overlong forms, surrogates and out-of-range values;
  * Python text-mode reading with universal newlines (`newline=None`): on
    read, `\r\n` and lone `\r` are translated to `\n`; on write, `\n` is
    translated to `os.linesep`, which on POSIX is `\n` (identity) — POSIX is
    the modelled platform;
  * `normalize_unicode`, `main` (the part after argument parsing) and the
    argparse layer of src/main.py, with the exception classes that occur and
    the Python class hierarchy facts that matter (`FileNotFoundError` and
    `IsADirectoryError` are subclasses of `OSError`; `UnicodeDecodeError` is a
    subclass of `ValueError`), and the log lines each branch emits;
  * `unicodedata.normalize` of the Python standard library is not code of
    this repository; runs are parametrized over it, and a concrete instance
    is modelled from the spec for concrete scenarios.
-/

/-- Bytes are naturals below 256; code points are naturals. -/
abbrev Byte := Nat

/-- A filesystem node: a regular file with byte content, or a directory. -/
inductive FsNode : Type where
  | file (content : List Byte)
  | dir
deriving DecidableEq

/-- A flat filesystem: paths (strings) mapped to nodes, `none` = no entry. -/
abbrev FS := String → Option FsNode

/-- Update a filesystem at one path. -/
def FS.set (fs : FS) (p : String) (n : FsNode) : FS :=
  fun q => if q = p then some n else fs q

/-- A Unicode scalar value: below 0x110000 and not a surrogate. -/
def ScalarValue (c : Nat) : Prop := c < 0x110000 ∧ ¬ (0xD800 ≤ c ∧ c < 0xE000)

instance (c : Nat) : Decidable (ScalarValue c) := by
  unfold ScalarValue; infer_instance

/-- UTF-8 encoding of a single scalar value (CPython's utf-8 codec on
encoding; input is assumed to be a scalar value). -/
def utf8EncodeChar (c : Nat) : List Byte :=
  if c < 0x80 then [c]
  else if c < 0x800 then [0xC0 + c / 0x40, 0x80 + c % 0x40]
  else if c < 0x10000 then
    [0xE0 + c / 0x1000, 0x80 + (c / 0x40) % 0x40, 0x80 + c % 0x40]
  else
    [0xF0 + c / 0x40000, 0x80 + (c / 0x1000) % 0x40,
     0x80 + (c / 0x40) % 0x40, 0x80 + c % 0x40]

/-- UTF-8 encoding of a sequence of scalar values. -/
def utf8Encode (s : List Nat) : List Byte := s.flatMap utf8EncodeChar

/-- Continuation of a two-byte sequence with lead `b0` (0xC2-0xDF). -/
def utf8Dec2 (b0 : Nat) : List Byte → Option (Nat × List Byte)
  | b1 :: r =>
    if 0x80 ≤ b1 ∧ b1 < 0xC0 then some ((b0 - 0xC0) * 0x40 + (b1 - 0x80), r)
    else none
  | [] => none

/-- Continuation of a three-byte sequence with lead `b0` (0xE0-0xEF): the
second byte after 0xE0 starts at 0xA0 (overlong rejection) and after 0xED
stops at 0x9F (surrogate rejection). -/
def utf8Dec3 (b0 : Nat) : List Byte → Option (Nat × List Byte)
  | b1 :: b2 :: r =>
    if (if b0 = 0xE0 then 0xA0 ≤ b1 ∧ b1 < 0xC0
        else if b0 = 0xED then 0x80 ≤ b1 ∧ b1 < 0xA0
        else 0x80 ≤ b1 ∧ b1 < 0xC0) ∧ (0x80 ≤ b2 ∧ b2 < 0xC0) then
      some ((b0 - 0xE0) * 0x1000 + (b1 - 0x80) * 0x40 + (b2 - 0x80), r)
    else none
  | _ => none

/-- Continuation of a four-byte sequence with lead `b0` (0xF0-0xF4): the
second byte after 0xF0 starts at 0x90 (overlong rejection) and after 0xF4
stops at 0x8F (values above U+10FFFF rejected). -/
def utf8Dec4 (b0 : Nat) : List Byte → Option (Nat × List Byte)
  | b1 :: b2 :: b3 :: r =>
    if (if b0 = 0xF0 then 0x90 ≤ b1 ∧ b1 < 0xC0
        else if b0 = 0xF4 then 0x80 ≤ b1 ∧ b1 < 0x90
        else 0x80 ≤ b1 ∧ b1 < 0xC0) ∧ (0x80 ≤ b2 ∧ b2 < 0xC0) ∧ (0x80 ≤ b3 ∧ b3 < 0xC0) then
      some ((b0 - 0xF0) * 0x40000 + (b1 - 0x80) * 0x1000 +
            (b2 - 0x80) * 0x40 + (b3 - 0x80), r)
    else none
  | _ => none

/-- Decode one scalar value from the front of the byte list (CPython's
strict utf-8 codec): rejects lone continuation bytes, overlong leads
0xC0/0xC1, leads above 0xF4, and delegates the per-length checks. -/
def utf8DecodeOne : List Byte → Option (Nat × List Byte)
  | [] => none
  | b0 :: rest =>
    if b0 < 0x80 then some (b0, rest)
    else if b0 < 0xC2 then none
    else if b0 < 0xE0 then utf8Dec2 b0 rest
    else if b0 < 0xF0 then utf8Dec3 b0 rest
    else if b0 < 0xF5 then utf8Dec4 b0 rest
    else none

/-- Fuel-driven decoding loop; the fuel only bounds the recursion depth and
is immaterial whenever it is at least the list length (`utf8DecodeAux_eq`). -/
def utf8DecodeAux : Nat → List Byte → Option (List Nat)
  | _, [] => some []
  | 0, _ :: _ => none
  | fuel + 1, b :: t =>
    match utf8DecodeOne (b :: t) with
    | some (c, r) => (utf8DecodeAux fuel r).map (fun s => c :: s)
    | none => none

/-- Strict UTF-8 decoding of a whole byte sequence (CPython's utf-8 codec
with strict errors, as used by `open(..., encoding='utf-8')`): any invalid
or truncated sequence makes the whole decode fail. -/
def utf8Decode (l : List Byte) : Option (List Nat) := utf8DecodeAux l.length l

/-- Universal-newline translation performed by Python text-mode reading with
`newline=None`: `\r\n` (13, 10) and lone `\r` (13) both become `\n` (10). -/
def translateNewlines : List Nat → List Nat
  | [] => []
  | [c] => if c = 13 then [10] else [c]
  | c :: c2 :: t =>
    if c = 13 then
      if c2 = 10 then 10 :: translateNewlines t
      else 10 :: translateNewlines (c2 :: t)
    else c :: translateNewlines (c2 :: t)

/-- The Python exception classes that arise in src/main.py's reachable paths. -/
inductive PyExc : Type where
  | valueError
  | fileNotFoundError
  | isADirectoryError
  | unicodeDecodeError
deriving DecidableEq

/-- Python class test `isinstance(e, ValueError)`: `UnicodeDecodeError` is a
subclass of `ValueError` (via `UnicodeError`). -/
def isValueErrorClass (e : PyExc) : Bool :=
  match e with
  | PyExc.valueError => true
  | PyExc.unicodeDecodeError => true
  | _ => false

/-- Python class test `isinstance(e, OSError)`: `FileNotFoundError` and
`IsADirectoryError` are subclasses of `OSError`. -/
def isOSErrorClass (e : PyExc) : Bool :=
  match e with
  | PyExc.fileNotFoundError => true
  | PyExc.isADirectoryError => true
  | _ => false

/-- The log lines src/main.py can emit, one constructor per logging call. -/
inductive LogEvent : Type where
  /-- line 43: `Successfully normalized '<in>' to '<out>' using <form>` -/
  | infoSuccess (inp out form : String)
  /-- line 46: `File not found: ...` (inside `normalize_unicode`) -/
  | errFileNotFound
  /-- line 49: `OS error: ...` (inside `normalize_unicode`) -/
  | errOSError
  /-- line 52: `Unicode decode error: ...` (inside `normalize_unicode`) -/
  | errDecode
  /-- line 55: `An unexpected error occurred: ...` (inside `normalize_unicode`) -/
  | errUnexpected
  /-- line 100: `Error: Input file '<in>' is not a valid file.` (in `main`) -/
  | errInvalidFile (inp : String)
  /-- line 106: `ValueError: ...` (in `main`) -/
  | errMainValue
  /-- line 109: `FileNotFoundError: ...` (in `main`) -/
  | errMainFileNotFound
  /-- line 112: `OSError: ...` (in `main`) -/
  | errMainOSError
  /-- line 115: `UnicodeDecodeError: ...` (in `main`) -/
  | errMainDecode
  /-- line 118: `An unexpected error occurred: ...` (in `main`) -/
  | errMainUnexpected
deriving DecidableEq

/-- The forms accepted at line 28 of src/main.py. -/
def pyForms : List String := ["NFC", "NFKD", "NFD", "NFKC"]

/-- Embedding of `normalize_unicode` (src/main.py lines 12-56), parametrized
over the library primitive `nlib` standing for `unicodedata.normalize`.
Returns the resulting filesystem or the propagated exception, together with
the log lines emitted inside the function.  The `ValueError` of line 29 and
the `FileNotFoundError` of line 32 are raised before the `try` block, so
they carry no local log line; exceptions raised inside the `try` are logged
by the matching `except` clause and re-raised.  Opening a directory raises
`IsADirectoryError` (an `OSError`), caught by the `except OSError` clause at
line 48; `UnicodeDecodeError` is caught at line 51 (it is not an `OSError`). -/
def normalize_unicode (nlib : String → List Nat → List Nat) (fs : FS)
    (input_file output_file normalization_form : String) :
    Except PyExc FS × List LogEvent :=
  if normalization_form ∉ pyForms then
    (Except.error PyExc.valueError, [])
  else if (fs input_file).isNone then
    (Except.error PyExc.fileNotFoundError, [])
  else
    match fs input_file with
    | none => (Except.error PyExc.fileNotFoundError, [LogEvent.errFileNotFound])
    | some FsNode.dir => (Except.error PyExc.isADirectoryError, [LogEvent.errOSError])
    | some (FsNode.file b) =>
      match utf8Decode b with
      | none => (Except.error PyExc.unicodeDecodeError, [LogEvent.errDecode])
      | some d =>
        let content := translateNewlines d
        let normalized := nlib normalization_form content
        match fs output_file with
        | some FsNode.dir => (Except.error PyExc.isADirectoryError, [LogEvent.errOSError])
        | _ =>
          (Except.ok (FS.set fs output_file (FsNode.file (utf8Encode normalized))),
           [LogEvent.infoSuccess input_file output_file normalization_form])

/-- Result of one run: process exit code, emitted log lines in order, and
the final filesystem. -/
structure RunResult : Type where
  exitCode : Nat
  logs : List LogEvent
  fs : FS

/-- The log line emitted by `main`'s `except` chain (src/main.py lines
105-119) for a propagated exception. The clauses are tried in source order,
so `except ValueError` at line 105 also catches `UnicodeDecodeError` (a
`ValueError` subclass), making the `except UnicodeDecodeError` clause at
line 114 unreachable. -/
def mainExceptLog (e : PyExc) : LogEvent :=
  if isValueErrorClass e then LogEvent.errMainValue
  else if e = PyExc.fileNotFoundError then LogEvent.errMainFileNotFound
  else if isOSErrorClass e then LogEvent.errMainOSError
  else if e = PyExc.unicodeDecodeError then LogEvent.errMainDecode
  else LogEvent.errMainUnexpected

/-- `Path.is_file()`: the path exists and is a regular file. -/
def isFile (fs : FS) (p : String) : Bool :=
  match fs p with
  | some (FsNode.file _) => true
  | _ => false

/-- Embedding of `main` (src/main.py lines 87-119) after argument parsing:
the `is_file` validation at line 99 (exit 1 with its own log line when it
fails), then `normalize_unicode`, with every propagated exception logged by
the matching `except` clause and mapped to exit code 1. -/
def mainRun (nlib : String → List Nat → List Nat) (fs : FS)
    (input_file output_file form : String) : RunResult :=
  if ¬ isFile fs input_file then
    ⟨1, [LogEvent.errInvalidFile input_file], fs⟩
  else
    match normalize_unicode nlib fs input_file output_file form with
    | (Except.ok fs2, logs) => ⟨0, logs, fs2⟩
    | (Except.error e, logs) => ⟨1, logs ++ [mainExceptLog e], fs⟩

/-- The `choices` list of the `--form` argument (src/main.py line 74). -/
def argChoicesForm : List String := ["NFC", "NFKD", "NFD", "NFKC"]

/-- Embedding of a full CLI run: argparse validates `--form` against its
`choices` list and, for a value outside it, prints a usage error and exits
with status 2 (argparse's documented `parser.error` behavior) before `main`'s
body runs and before any filesystem access; otherwise `main`'s body runs. -/
def cliRun (nlib : String → List Nat → List Nat) (fs : FS)
    (input_file output_file form : String) : RunResult :=
  if form ∉ argChoicesForm then ⟨2, [], fs⟩
  else mainRun nlib fs input_file output_file form

/-! ### A concrete model of `unicodedata.normalize`

`unicodedata.normalize` is a Python standard-library primitive, not code of
this repository.  The definitions below are a concrete instance of the
library parameter used for concrete scenarios and witnesses. -/

/-- Modelled from the spec: the canonical-decomposition table of
`unicodedata.normalize` ("canonical decomposition ... per the Unicode
canonical equivalence tables"), restricted to the code points exercised by
the claims' scenarios: U+00E9 and U+00C9 decompose to the base letter
followed by U+0301 COMBINING ACUTE ACCENT; every other code point used in
the scenarios has no canonical decomposition. -/
def canonDecompChar (c : Nat) : List Nat :=
  if c = 0xE9 then [0x65, 0x301]
  else if c = 0xC9 then [0x45, 0x301]
  else [c]

/-- Modelled from the spec: the compatibility-decomposition table
("compatibility decomposition ... also collapses formatting/compatibility
variants"); on the code points exercised by the claims it coincides with the
canonical table. -/
def compatDecompChar (c : Nat) : List Nat := canonDecompChar c

/-- Modelled from the spec: canonical combining classes of the Unicode
character database, restricted to the code points exercised by the claims:
U+0301 and U+0300 have class 230, all other code points used have class 0. -/
def ccc (c : Nat) : Nat :=
  if c = 0x301 then 230 else if c = 0x300 then 230 else 0

/-- Insert a nonstarter into an already canonically ordered suffix: it moves
right past nonstarters of strictly greater combining class (the Canonical
Ordering Algorithm's exchange condition) and stops at the first character it
need not exchange with, keeping the order stable for equal classes. -/
def cInsert (c : Nat) : List Nat → List Nat
  | [] => [c]
  | d :: t => if ccc c > ccc d ∧ ccc d > 0 then d :: cInsert c t else c :: d :: t

/-- The Canonical Ordering Algorithm: sort each maximal run of nonstarters
by combining class, stably; starters never move. -/
def canonicalOrder : List Nat → List Nat
  | [] => []
  | c :: t => if ccc c = 0 then c :: canonicalOrder t else cInsert c (canonicalOrder t)

/-- Modelled from the spec: the primary-composite table (the inverse of the
canonical decompositions, none of which is excluded for the code points
involved). -/
def composePair (a b : Nat) : Option Nat :=
  if a = 0x65 ∧ b = 0x301 then some 0xE9
  else if a = 0x45 ∧ b = 0x301 then some 0xC9
  else none

/-- The Canonical Composition Algorithm on the text after the last starter
`L`: `P` holds, most recent first, the nonstarters seen since `L` that did
not combine.  A character combines with `L` when the pair is a primary
composite and no character in `P` blocks it (for a nonstarter, blocked means
some character of `P` has combining class at least its own; a following
starter is blocked whenever `P` is nonempty). -/
def composeStep (L : Nat) (P : List Nat) : List Nat → List Nat
  | [] => L :: P.reverse
  | c :: t =>
    if ccc c = 0 then
      match P, composePair L c with
      | [], some LC => composeStep LC [] t
      | _, _ => L :: P.reverse ++ composeStep c [] t
    else
      match composePair L c with
      | some LC =>
        if P.all (fun d => ccc d < ccc c) then composeStep LC P t
        else composeStep L (c :: P) t
      | none => composeStep L (c :: P) t

/-- The Canonical Composition Algorithm: characters before the first starter
are left as they are. -/
def canonicalCompose : List Nat → List Nat
  | [] => []
  | c :: t => if ccc c = 0 then composeStep c [] t else c :: canonicalCompose t

/-- Modelled from the spec: `unicodedata.normalize` of the Python standard
library ("NFC = canonical decomposition followed by canonical composition;
NFD = canonical decomposition only; NFKC = compatibility decomposition
followed by canonical composition; NFKD = compatibility decomposition
only"), over the restricted character data above.  `normalize_unicode`
validates the form before calling it, so the fallthrough branch is
unreachable in every modelled run. -/
def unicodedataNormalize (form : String) (s : List Nat) : List Nat :=
  if form = "NFD" then canonicalOrder (s.flatMap canonDecompChar)
  else if form = "NFC" then canonicalCompose (canonicalOrder (s.flatMap canonDecompChar))
  else if form = "NFKD" then canonicalOrder (s.flatMap compatDecompChar)
  else if form = "NFKC" then canonicalCompose (canonicalOrder (s.flatMap compatDecompChar))
  else s

/-! ### Concrete fixtures for witnesses and counterexamples -/

/-- A filesystem holding one regular file `in.txt` whose bytes are the UTF-8
encoding of `cafe` followed by U+0301 COMBINING ACUTE ACCENT. -/
def fsCafe : FS := fun p =>
  if p = "in.txt" then some (FsNode.file [0x63, 0x61, 0x66, 0x65, 0xCC, 0x81]) else none

/-- A filesystem holding one regular file `in.txt` whose decoded text is
`a`, CR, LF, `b`. -/
def fsCRLF : FS := fun p =>
  if p = "in.txt" then some (FsNode.file [97, 13, 10, 98]) else none

/-- A filesystem holding one regular file `in.txt` whose single byte 0xFF is
not valid UTF-8. -/
def fsBadUtf8 : FS := fun p =>
  if p = "in.txt" then some (FsNode.file [0xFF]) else none

/-- The empty filesystem: every path is absent. -/
def fsEmpty : FS := fun _ => none

/-- A filesystem where the path `in.txt` is a directory. -/
def fsDirInput : FS := fun p => if p = "in.txt" then some FsNode.dir else none

/-! ### Supporting lemmas -/

/-- Universal-newline translation leaves carriage-return-free text unchanged. -/
theorem translateNewlines_eq_self : ∀ (l : List Nat), 13 ∉ l → translateNewlines l = l
  | [], _ => rfl
  | [c], h => by
    have hc : c ≠ 13 := by simp at h; omega
    simp [translateNewlines, hc]
  | c :: c2 :: t, h => by
    have hc : c ≠ 13 := by simp at h; tauto
    have ht : 13 ∉ c2 :: t := by simp at h ⊢; tauto
    simp only [translateNewlines, if_neg hc]
    rw [translateNewlines_eq_self (c2 :: t) ht]

/-- A successful two-byte continuation consumes exactly one byte. -/
theorem utf8Dec2_length (b0 : Nat) (l : List Byte) (c : Nat) (r : List Byte)
    (h : utf8Dec2 b0 l = some (c, r)) : r.length + 1 = l.length := by
  match l with
  | [] => simp [utf8Dec2] at h
  | b1 :: r1 =>
    simp only [utf8Dec2] at h
    split_ifs at h
    all_goals simp only [Option.some.injEq, Prod.mk.injEq] at h
    all_goals rw [← h.2]
    all_goals simp only [List.length_cons]

/-- A successful three-byte continuation consumes exactly two bytes. -/
theorem utf8Dec3_length (b0 : Nat) (l : List Byte) (c : Nat) (r : List Byte)
    (h : utf8Dec3 b0 l = some (c, r)) : r.length + 2 = l.length := by
  match l with
  | [] => simp [utf8Dec3] at h
  | [b1] => simp [utf8Dec3] at h
  | b1 :: b2 :: r2 =>
    simp only [utf8Dec3] at h
    split_ifs at h
    all_goals simp only [Option.some.injEq, Prod.mk.injEq] at h
    all_goals rw [← h.2]
    all_goals simp only [List.length_cons]

/-- A successful four-byte continuation consumes exactly three bytes. -/
theorem utf8Dec4_length (b0 : Nat) (l : List Byte) (c : Nat) (r : List Byte)
    (h : utf8Dec4 b0 l = some (c, r)) : r.length + 3 = l.length := by
  match l with
  | [] => simp [utf8Dec4] at h
  | [b1] => simp [utf8Dec4] at h
  | [b1, b2] => simp [utf8Dec4] at h
  | b1 :: b2 :: b3 :: r3 =>
    simp only [utf8Dec4] at h
    split_ifs at h
    all_goals simp only [Option.some.injEq, Prod.mk.injEq] at h
    all_goals rw [← h.2]
    all_goals simp only [List.length_cons]

/-- A successful single decode consumes at least one byte. -/
theorem utf8DecodeOne_length (l : List Byte) (c : Nat) (r : List Byte)
    (h : utf8DecodeOne l = some (c, r)) : r.length < l.length := by
  match l with
  | [] => simp [utf8DecodeOne] at h
  | b0 :: rest =>
    simp only [utf8DecodeOne] at h
    split_ifs at h
    · simp only [Option.some.injEq, Prod.mk.injEq] at h
      rw [← h.2]
      simp only [List.length_cons]
      omega
    · have := utf8Dec2_length b0 rest c r h
      simp only [List.length_cons]
      omega
    · have := utf8Dec3_length b0 rest c r h
      simp only [List.length_cons]
      omega
    · have := utf8Dec4_length b0 rest c r h
      simp only [List.length_cons]
      omega

/-- Decoding the empty list succeeds for any fuel. -/
theorem utf8DecodeAux_nil : ∀ (f : Nat), utf8DecodeAux f [] = some []
  | 0 => rfl
  | _ + 1 => rfl

/-- The decoding fuel is immaterial once it covers the list length. -/
theorem utf8DecodeAux_eq :
    ∀ (f1 f2 : Nat) (l : List Byte), l.length ≤ f1 → l.length ≤ f2 →
      utf8DecodeAux f1 l = utf8DecodeAux f2 l
  | f1, f2, [], _, _ => by rw [utf8DecodeAux_nil, utf8DecodeAux_nil]
  | 0, _, b :: t, h1, _ => by simp at h1
  | _ + 1, 0, b :: t, _, h2 => by simp at h2
  | f1 + 1, f2 + 1, b :: t, h1, h2 => by
    simp only [utf8DecodeAux]
    cases hone : utf8DecodeOne (b :: t) with
    | none => rfl
    | some p =>
      obtain ⟨c, r⟩ := p
      have hr := utf8DecodeOne_length _ _ _ hone
      simp only [List.length_cons] at h1 h2 hr
      dsimp only
      rw [utf8DecodeAux_eq f1 f2 r (by omega) (by omega)]

/-- One-step unfolding of `utf8Decode` on a successful single decode. -/
theorem utf8Decode_step (l : List Byte) (c : Nat) (r : List Byte)
    (h : utf8DecodeOne l = some (c, r)) :
    utf8Decode l = (utf8Decode r).map (fun s => c :: s) := by
  match l with
  | [] => simp [utf8DecodeOne] at h
  | b :: t =>
    have hr := utf8DecodeOne_length _ _ _ h
    simp only [List.length_cons] at hr
    show utf8DecodeAux (b :: t).length (b :: t) = (utf8Decode r).map (fun s => c :: s)
    simp only [List.length_cons, utf8DecodeAux, h]
    rw [utf8DecodeAux_eq t.length r.length r (by omega) (by omega)]
    rfl

/-- Decoding a UTF-8-encoded scalar value peels it off the front. -/
theorem utf8DecodeOne_encodeChar (c : Nat) (h : ScalarValue c) (rest : List Byte) :
    utf8DecodeOne (utf8EncodeChar c ++ rest) = some (c, rest) := by
  obtain ⟨h1, h2⟩ := h
  by_cases hc1 : c < 0x80
  · simp [utf8EncodeChar, hc1, utf8DecodeOne]
  · by_cases hc2 : c < 0x800
    · have e1 : ¬ (0xC0 + c / 0x40 < 0x80) := by omega
      have e2 : ¬ (0xC0 + c / 0x40 < 0xC2) := by omega
      have e3 : 0xC0 + c / 0x40 < 0xE0 := by omega
      have e4 : 0x80 ≤ 0x80 + c % 0x40 ∧ 0x80 + c % 0x40 < 0xC0 := by omega
      simp only [utf8EncodeChar, if_neg hc1, if_pos hc2, List.cons_append,
        List.nil_append]
      simp only [utf8DecodeOne, if_neg e1, if_neg e2, if_pos e3]
      simp only [utf8Dec2, if_pos e4]
      have hv : (0xC0 + c / 0x40 - 0xC0) * 0x40 + (0x80 + c % 0x40 - 0x80) = c := by
        omega
      rw [hv]
    · by_cases hc3 : c < 0x10000
      · have e1 : ¬ (0xE0 + c / 0x1000 < 0x80) := by omega
        have e2 : ¬ (0xE0 + c / 0x1000 < 0xC2) := by omega
        have e3 : ¬ (0xE0 + c / 0x1000 < 0xE0) := by omega
        have e4 : 0xE0 + c / 0x1000 < 0xF0 := by omega
        have hg : (if 0xE0 + c / 0x1000 = 0xE0 then
              0xA0 ≤ 0x80 + c / 0x40 % 0x40 ∧ 0x80 + c / 0x40 % 0x40 < 0xC0
            else if 0xE0 + c / 0x1000 = 0xED then
              0x80 ≤ 0x80 + c / 0x40 % 0x40 ∧ 0x80 + c / 0x40 % 0x40 < 0xA0
            else 0x80 ≤ 0x80 + c / 0x40 % 0x40 ∧ 0x80 + c / 0x40 % 0x40 < 0xC0) ∧
            (0x80 ≤ 0x80 + c % 0x40 ∧ 0x80 + c % 0x40 < 0xC0) := by
          refine ⟨?_, by omega⟩
          split_ifs with g1 g2
          · omega
          · omega
          · omega
        simp only [utf8EncodeChar, if_neg hc1, if_neg hc2, if_pos hc3,
          List.cons_append, List.nil_append]
        simp only [utf8DecodeOne, if_neg e1, if_neg e2, if_neg e3, if_pos e4]
        simp only [utf8Dec3, if_pos hg]
        have hv : (0xE0 + c / 0x1000 - 0xE0) * 0x1000 +
            (0x80 + c / 0x40 % 0x40 - 0x80) * 0x40 + (0x80 + c % 0x40 - 0x80) = c := by
          omega
        rw [hv]
      · have e1 : ¬ (0xF0 + c / 0x40000 < 0x80) := by omega
        have e2 : ¬ (0xF0 + c / 0x40000 < 0xC2) := by omega
        have e3 : ¬ (0xF0 + c / 0x40000 < 0xE0) := by omega
        have e4 : ¬ (0xF0 + c / 0x40000 < 0xF0) := by omega
        have e5 : 0xF0 + c / 0x40000 < 0xF5 := by omega
        have hg : (if 0xF0 + c / 0x40000 = 0xF0 then
              0x90 ≤ 0x80 + c / 0x1000 % 0x40 ∧ 0x80 + c / 0x1000 % 0x40 < 0xC0
            else if 0xF0 + c / 0x40000 = 0xF4 then
              0x80 ≤ 0x80 + c / 0x1000 % 0x40 ∧ 0x80 + c / 0x1000 % 0x40 < 0x90
            else 0x80 ≤ 0x80 + c / 0x1000 % 0x40 ∧ 0x80 + c / 0x1000 % 0x40 < 0xC0) ∧
            (0x80 ≤ 0x80 + c / 0x40 % 0x40 ∧ 0x80 + c / 0x40 % 0x40 < 0xC0) ∧
            (0x80 ≤ 0x80 + c % 0x40 ∧ 0x80 + c % 0x40 < 0xC0) := by
          refine ⟨?_, by omega, by omega⟩
          split_ifs with g1 g2
          · omega
          · omega
          · omega
        simp only [utf8EncodeChar, if_neg hc1, if_neg hc2, if_neg hc3,
          List.cons_append, List.nil_append]
        simp only [utf8DecodeOne, if_neg e1, if_neg e2, if_neg e3, if_neg e4, if_pos e5]
        simp only [utf8Dec4, if_pos hg]
        have hv : (0xF0 + c / 0x40000 - 0xF0) * 0x40000 +
            (0x80 + c / 0x1000 % 0x40 - 0x80) * 0x1000 +
            (0x80 + c / 0x40 % 0x40 - 0x80) * 0x40 + (0x80 + c % 0x40 - 0x80) = c := by
          omega
        rw [hv]

/-- Round trip: strict UTF-8 decoding inverts encoding on scalar sequences. -/
theorem utf8Decode_utf8Encode :
    ∀ (s : List Nat), (∀ c ∈ s, ScalarValue c) → utf8Decode (utf8Encode s) = some s
  | [], _ => rfl
  | c :: t, h => by
    have hc : ScalarValue c := h c (by simp)
    have ht : ∀ d ∈ t, ScalarValue d := fun d hd => h d (by simp [hd])
    have hone := utf8DecodeOne_encodeChar c hc (utf8Encode t)
    have htt := utf8Decode_utf8Encode t ht
    have hcons : utf8Encode (c :: t) = utf8EncodeChar c ++ utf8Encode t := by
      simp [utf8Encode]
    rw [hcons, utf8Decode_step _ _ _ hone, htt]
    rfl

/-! ### Run characterizations -/

/-- A run with an unrecognized form stops in argparse: usage error, exit
status 2, nothing logged through logging, filesystem untouched. -/
theorem cliRun_usage (nlib : String → List Nat → List Nat) (fs : FS)
    (inp out form : String) (hform : form ∉ argChoicesForm) :
    cliRun nlib fs inp out form = ⟨2, [], fs⟩ := by
  simp [cliRun, hform]

/-- A run whose input path is not an existing regular file stops at `main`'s
`is_file` check: one invalid-file log line, exit code 1, filesystem
untouched. -/
theorem cliRun_invalidFile (nlib : String → List Nat → List Nat) (fs : FS)
    (inp out form : String) (hform : form ∈ argChoicesForm)
    (hif : ¬ isFile fs inp = true) :
    cliRun nlib fs inp out form = ⟨1, [LogEvent.errInvalidFile inp], fs⟩ := by
  simp only [cliRun, mainRun]
  rw [if_neg (by simp [hform])]
  rw [if_pos (by simp [hif])]

/-- A successful run: recognized form, input a regular file whose bytes
decode, output path not a directory.  The output file holds the UTF-8
encoding of the normalization of the newline-translated decoded input. -/
theorem cliRun_success (nlib : String → List Nat → List Nat) (fs : FS)
    (inp out form : String) (b : List Byte) (d : List Nat)
    (hform : form ∈ argChoicesForm) (hin : fs inp = some (FsNode.file b))
    (hdec : utf8Decode b = some d) (hout : fs out ≠ some FsNode.dir) :
    cliRun nlib fs inp out form =
      ⟨0, [LogEvent.infoSuccess inp out form],
       FS.set fs out (FsNode.file (utf8Encode (nlib form (translateNewlines d))))⟩ := by
  have hpf : form ∈ pyForms := hform
  have hisf : isFile fs inp = true := by simp [isFile, hin]
  simp only [cliRun, mainRun, normalize_unicode]
  rw [if_neg (by simp [hform])]
  rw [if_neg (by simp [hisf])]
  rw [if_neg (by simp [hpf])]
  rw [if_neg (by simp [hin])]
  rw [hin]
  dsimp only
  rw [hdec]

/-- A run on a regular file with invalid UTF-8 bytes: `normalize_unicode`
logs the decode error and re-raises; `main`'s `except ValueError` clause
(which `UnicodeDecodeError` matches, being a `ValueError` subclass) logs it
and exits 1; the filesystem is untouched. -/
theorem cliRun_decodeError (nlib : String → List Nat → List Nat) (fs : FS)
    (inp out form : String) (b : List Byte)
    (hform : form ∈ argChoicesForm) (hin : fs inp = some (FsNode.file b))
    (hdec : utf8Decode b = none) :
    cliRun nlib fs inp out form =
      ⟨1, [LogEvent.errDecode, LogEvent.errMainValue], fs⟩ := by
  have hpf : form ∈ pyForms := hform
  have hisf : isFile fs inp = true := by simp [isFile, hin]
  simp only [cliRun, mainRun, normalize_unicode]
  rw [if_neg (by simp [hform])]
  rw [if_neg (by simp [hisf])]
  rw [if_neg (by simp [hpf])]
  rw [if_neg (by simp [hin])]
  rw [hin]
  dsimp only
  rw [hdec]
  rfl

/-- A run whose output path is a directory: opening it for writing raises
`IsADirectoryError`, logged as an OS error inside `normalize_unicode` and by
`main`'s `except OSError` clause; exit code 1, filesystem untouched. -/
theorem cliRun_outDir (nlib : String → List Nat → List Nat) (fs : FS)
    (inp out form : String) (b : List Byte) (d : List Nat)
    (hform : form ∈ argChoicesForm) (hin : fs inp = some (FsNode.file b))
    (hdec : utf8Decode b = some d) (hout : fs out = some FsNode.dir) :
    cliRun nlib fs inp out form =
      ⟨1, [LogEvent.errOSError, LogEvent.errMainOSError], fs⟩ := by
  have hpf : form ∈ pyForms := hform
  have hisf : isFile fs inp = true := by simp [isFile, hin]
  simp only [cliRun, mainRun, normalize_unicode]
  rw [if_neg (by simp [hform])]
  rw [if_neg (by simp [hisf])]
  rw [if_neg (by simp [hpf])]
  rw [if_neg (by simp [hin])]
  rw [hin]
  dsimp only
  rw [hdec]
  dsimp only
  rw [hout]
  rfl

/-- When `normalize_unicode` returns normally, the only path it may have
changed is the output path. -/
theorem normalize_unicode_ok_fs (nlib : String → List Nat → List Nat) (fs : FS)
    (inp out form : String) (fs2 : FS) (logs : List LogEvent)
    (h : normalize_unicode nlib fs inp out form = (Except.ok fs2, logs))
    (p : String) (hp : p ≠ out) : fs2 p = fs p := by
  simp only [normalize_unicode] at h
  split_ifs at h
  all_goals try (injection h with h1 h2; exact Except.noConfusion h1)
  split at h
  all_goals try (injection h with h1 h2; exact Except.noConfusion h1)
  split at h
  all_goals try (injection h with h1 h2; exact Except.noConfusion h1)
  split at h
  all_goals try (injection h with h1 h2; exact Except.noConfusion h1)
  injection h with h1 h2
  injection h1 with h3
  rw [← h3]
  simp [FS.set, hp]

/-- `main` never changes any path other than the output path. -/
theorem mainRun_fs (nlib : String → List Nat → List Nat) (fs : FS)
    (inp out form : String) (p : String) (hp : p ≠ out) :
    (mainRun nlib fs inp out form).fs p = fs p := by
  unfold mainRun
  split
  · rfl
  · split
    case _ fs2 logs heq => exact normalize_unicode_ok_fs nlib fs inp out form fs2 logs heq p hp
    case _ e logs heq => rfl

/-- A full run never changes any path other than the output path. -/
theorem cliRun_fs_frame (nlib : String → List Nat → List Nat) (fs : FS)
    (inp out form : String) (p : String) (hp : p ≠ out) :
    (cliRun nlib fs inp out form).fs p = fs p := by
  unfold cliRun
  split
  · rfl
  · exact mainRun_fs nlib fs inp out form p hp

/-- Inversion: any run that exits with status 0 went through the success
path, and its result is fully determined by the input content and the
form. -/
theorem cliRun_exit0_inversion (nlib : String → List Nat → List Nat) (fs : FS)
    (inp out form : String) (h : (cliRun nlib fs inp out form).exitCode = 0) :
    ∃ b d, form ∈ argChoicesForm ∧ fs inp = some (FsNode.file b) ∧
      utf8Decode b = some d ∧
      cliRun nlib fs inp out form =
        ⟨0, [LogEvent.infoSuccess inp out form],
         FS.set fs out (FsNode.file (utf8Encode (nlib form (translateNewlines d))))⟩ := by
  by_cases hform : form ∈ argChoicesForm
  · by_cases hif : isFile fs inp = true
    · match hin : fs inp with
      | none => simp [isFile, hin] at hif
      | some FsNode.dir => simp [isFile, hin] at hif
      | some (FsNode.file b) =>
        match hdec : utf8Decode b with
        | none =>
          rw [cliRun_decodeError nlib fs inp out form b hform hin hdec] at h
          simp at h
        | some d =>
          match hfo : fs out with
          | some FsNode.dir =>
            rw [cliRun_outDir nlib fs inp out form b d hform hin hdec hfo] at h
            simp at h
          | none =>
            exact ⟨b, d, hform, rfl, hdec,
              cliRun_success nlib fs inp out form b d hform hin hdec (by rw [hfo]; simp)⟩
          | some (FsNode.file bo) =>
            exact ⟨b, d, hform, rfl, hdec,
              cliRun_success nlib fs inp out form b d hform hin hdec (by rw [hfo]; simp)⟩
    · rw [cliRun_invalidFile nlib fs inp out form hform hif] at h
      simp at h
  · rw [cliRun_usage nlib fs inp out form hform] at h
    simp at h

/-! ### Claims -/

/-- C1 (counterexample): with input text `a`, CR, LF, `b` and form NFC the
run succeeds, but the output bytes are NOT the UTF-8 encoding of the
normalization of the decoded input bytes: text-mode reading first turns CR
LF into LF, so the written content drops the CR. -/
theorem C1_crlf_counterexample :
    (cliRun unicodedataNormalize fsCRLF "in.txt" "out.txt" "NFC").exitCode = 0 ∧
    (cliRun unicodedataNormalize fsCRLF "in.txt" "out.txt" "NFC").fs "out.txt" =
      some (FsNode.file [97, 10, 98]) ∧
    utf8Decode [97, 13, 10, 98] = some [97, 13, 10, 98] ∧
    utf8Encode (unicodedataNormalize "NFC" [97, 13, 10, 98]) = [97, 13, 10, 98] ∧
    [97, 10, 98] ≠ [97, 13, 10, 98] := by
  refine ⟨by decide, by decide, by decide, by decide, by decide⟩

/-- C1 (amended): every run that exits 0 read a regular file whose bytes
decode as UTF-8, and wrote to the output path exactly the UTF-8 encoding of
the normalization of the universal-newline-translated decoded content; for
input without carriage returns the translation is the identity and the
original claim holds. -/
theorem C1_success_output_content (nlib : String → List Nat → List Nat)
    (fs : FS) (inp out form : String)
    (h : (cliRun nlib fs inp out form).exitCode = 0) :
    ∃ b d, fs inp = some (FsNode.file b) ∧ utf8Decode b = some d ∧
      (cliRun nlib fs inp out form).fs out =
        some (FsNode.file (utf8Encode (nlib form (translateNewlines d)))) := by
  obtain ⟨b, d, hform, hin, hdec, hr⟩ := cliRun_exit0_inversion nlib fs inp out form h
  exact ⟨b, d, hin, hdec, by rw [hr]; simp [FS.set]⟩

/-- C1 (witness): the amended statement applied to a concrete successful
run. -/
theorem C1_success_output_content_witness :
    (cliRun unicodedataNormalize fsCafe "in.txt" "out.txt" "NFC").exitCode = 0 ∧
    (∃ b d, fsCafe "in.txt" = some (FsNode.file b) ∧ utf8Decode b = some d ∧
      (cliRun unicodedataNormalize fsCafe "in.txt" "out.txt" "NFC").fs "out.txt" =
        some (FsNode.file (utf8Encode (unicodedataNormalize "NFC" (translateNewlines d))))) :=
  ⟨by decide,
   C1_success_output_content unicodedataNormalize fsCafe "in.txt" "out.txt" "NFC" (by decide)⟩

/-- C2 (counterexample): a run with the unrecognized form value `XYZ` exits
with status 2 (argparse's usage-error status), not 1, and emits no log
line, so no InvalidArgument/ValueError classification is reported. -/
theorem C2_usage_exit2_counterexample :
    (cliRun unicodedataNormalize fsCafe "in.txt" "out.txt" "XYZ").exitCode = 2 ∧
    (cliRun unicodedataNormalize fsCafe "in.txt" "out.txt" "XYZ").exitCode ≠ 1 ∧
    (cliRun unicodedataNormalize fsCafe "in.txt" "out.txt" "XYZ").logs = [] := by
  refine ⟨by decide, by decide, by decide⟩

/-- C2 (amended): a normalization-form value outside the four recognized
ones is rejected by argparse's `choices` check with exit status 2 before
`main`'s body runs and before any filesystem access (the filesystem is
returned untouched); the `ValueError` branch inside `normalize_unicode`
fires before any I/O only when that function is invoked directly. -/
theorem C2_invalid_form_before_io (nlib : String → List Nat → List Nat)
    (fs : FS) (inp out form : String) (hform : form ∉ argChoicesForm) :
    cliRun nlib fs inp out form = ⟨2, [], fs⟩ ∧
    normalize_unicode nlib fs inp out form = (Except.error PyExc.valueError, []) := by
  have hpf : form ∉ pyForms := hform
  refine ⟨cliRun_usage nlib fs inp out form hform, ?_⟩
  simp only [normalize_unicode]
  rw [if_pos hpf]

/-- C2 (witness): the amended statement applied at the concrete form value
`XYZ`. -/
theorem C2_invalid_form_before_io_witness :
    "XYZ" ∉ argChoicesForm ∧
    (cliRun unicodedataNormalize fsCafe "in.txt" "out.txt" "XYZ" = ⟨2, [], fsCafe⟩ ∧
     normalize_unicode unicodedataNormalize fsCafe "in.txt" "out.txt" "XYZ" =
       (Except.error PyExc.valueError, [])) :=
  ⟨by decide,
   C2_invalid_form_before_io unicodedataNormalize fsCafe "in.txt" "out.txt" "XYZ" (by decide)⟩

/-- C3 (confirmed): a run on an existing regular file whose bytes are not
valid UTF-8 fails with exit code 1, the decode-error classification is
logged (by `normalize_unicode`'s `except UnicodeDecodeError` clause), and
the filesystem is returned untouched: no output file is created and a
pre-existing file at the output path is unmodified. -/
theorem C3_decode_error (nlib : String → List Nat → List Nat)
    (fs : FS) (inp out form : String) (b : List Byte)
    (hform : form ∈ argChoicesForm) (hin : fs inp = some (FsNode.file b))
    (hdec : utf8Decode b = none) :
    cliRun nlib fs inp out form = ⟨1, [LogEvent.errDecode, LogEvent.errMainValue], fs⟩ ∧
    LogEvent.errDecode ∈ (cliRun nlib fs inp out form).logs ∧
    (cliRun nlib fs inp out form).fs out = fs out := by
  have h := cliRun_decodeError nlib fs inp out form b hform hin hdec
  refine ⟨h, ?_, ?_⟩
  · rw [h]; simp
  · rw [h]

/-- C3 (witness): the statement applied to a concrete file holding the
single invalid byte 0xFF. -/
theorem C3_decode_error_witness :
    "NFC" ∈ argChoicesForm ∧ fsBadUtf8 "in.txt" = some (FsNode.file [0xFF]) ∧
    utf8Decode [0xFF] = none ∧
    (cliRun unicodedataNormalize fsBadUtf8 "in.txt" "out.txt" "NFC" =
       ⟨1, [LogEvent.errDecode, LogEvent.errMainValue], fsBadUtf8⟩ ∧
     LogEvent.errDecode ∈ (cliRun unicodedataNormalize fsBadUtf8 "in.txt" "out.txt" "NFC").logs ∧
     (cliRun unicodedataNormalize fsBadUtf8 "in.txt" "out.txt" "NFC").fs "out.txt" =
       fsBadUtf8 "out.txt") :=
  ⟨by decide, by decide, by decide,
   C3_decode_error unicodedataNormalize fsBadUtf8 "in.txt" "out.txt" "NFC" [0xFF]
     (by decide) (by decide) (by decide)⟩

/-- C4 (counterexample): a run on a nonexistent input path exits 1, but the
only log line is `main`'s generic invalid-file error; neither NotFound
classification (`normalize_unicode`'s `File not found` line or `main`'s
`FileNotFoundError` line) appears, because `main`'s `is_file` pre-check
fires first and `normalize_unicode` is never called. -/
theorem C4_no_notfound_counterexample :
    (cliRun unicodedataNormalize fsEmpty "in.txt" "out.txt" "NFC").exitCode = 1 ∧
    (cliRun unicodedataNormalize fsEmpty "in.txt" "out.txt" "NFC").logs =
      [LogEvent.errInvalidFile "in.txt"] ∧
    LogEvent.errFileNotFound ∉ (cliRun unicodedataNormalize fsEmpty "in.txt" "out.txt" "NFC").logs ∧
    LogEvent.errMainFileNotFound ∉
      (cliRun unicodedataNormalize fsEmpty "in.txt" "out.txt" "NFC").logs := by
  refine ⟨by decide, by decide, by decide, by decide⟩

/-- C4 (amended): a run with a recognized form on a nonexistent input path
always fails with exit code 1, classified by `main`'s invalid-file check
(the same classification used for non-regular-file inputs), not by a
distinct NotFound classification; the filesystem is untouched. -/
theorem C4_missing_input (nlib : String → List Nat → List Nat)
    (fs : FS) (inp out form : String) (hform : form ∈ argChoicesForm)
    (hin : fs inp = none) :
    cliRun nlib fs inp out form = ⟨1, [LogEvent.errInvalidFile inp], fs⟩ :=
  cliRun_invalidFile nlib fs inp out form hform (by simp [isFile, hin])

/-- C4 (witness): the amended statement applied to the empty filesystem. -/
theorem C4_missing_input_witness :
    "NFC" ∈ argChoicesForm ∧ fsEmpty "in.txt" = none ∧
    cliRun unicodedataNormalize fsEmpty "in.txt" "out.txt" "NFC" =
      ⟨1, [LogEvent.errInvalidFile "in.txt"], fsEmpty⟩ :=
  ⟨by decide, rfl,
   C4_missing_input unicodedataNormalize fsEmpty "in.txt" "out.txt" "NFC" (by decide) rfl⟩

/-- C5 (counterexample): a run whose input path is a directory and a run
whose input path does not exist produce the same exit code and the same log
lines, so the directory failure is not distinguishable from the
nonexistent-path failure: there is no separate NotFound outcome to be
distinguishable from. -/
theorem C5_not_distinguishable_counterexample :
    (cliRun unicodedataNormalize fsDirInput "in.txt" "out.txt" "NFC").exitCode = 1 ∧
    (cliRun unicodedataNormalize fsDirInput "in.txt" "out.txt" "NFC").logs =
      [LogEvent.errInvalidFile "in.txt"] ∧
    (cliRun unicodedataNormalize fsDirInput "in.txt" "out.txt" "NFC").exitCode =
      (cliRun unicodedataNormalize fsEmpty "in.txt" "out.txt" "NFC").exitCode ∧
    (cliRun unicodedataNormalize fsDirInput "in.txt" "out.txt" "NFC").logs =
      (cliRun unicodedataNormalize fsEmpty "in.txt" "out.txt" "NFC").logs := by
  refine ⟨by decide, by decide, by decide, by decide⟩

/-- C5 (amended): a run with a recognized form on an input path that exists
but is a directory always fails with exit code 1, classified by `main`'s
invalid-file check — the identical classification produced for a
nonexistent path, hence not distinguishable from it; the filesystem is
untouched. -/
theorem C5_dir_input (nlib : String → List Nat → List Nat)
    (fs : FS) (inp out form : String) (hform : form ∈ argChoicesForm)
    (hin : fs inp = some FsNode.dir) :
    cliRun nlib fs inp out form = ⟨1, [LogEvent.errInvalidFile inp], fs⟩ :=
  cliRun_invalidFile nlib fs inp out form hform (by simp [isFile, hin])

/-- C5 (witness): the amended statement applied to a directory input. -/
theorem C5_dir_input_witness :
    "NFC" ∈ argChoicesForm ∧ fsDirInput "in.txt" = some FsNode.dir ∧
    cliRun unicodedataNormalize fsDirInput "in.txt" "out.txt" "NFC" =
      ⟨1, [LogEvent.errInvalidFile "in.txt"], fsDirInput⟩ :=
  ⟨by decide, by decide,
   C5_dir_input unicodedataNormalize fsDirInput "in.txt" "out.txt" "NFC" (by decide) (by decide)⟩

/-- C6 (confirmed): normalizing twice with the same form is a fixed point.
For any library primitive `nlib` satisfying, at the content in question, the
Unicode normalization contract — its output consists of scalar values,
contains no carriage return, and is itself fixed by a second application —
a successful first run followed by a run on its output file with the same
form succeeds and writes byte-identical output. -/
theorem C6_idempotent (nlib : String → List Nat → List Nat) (fs : FS)
    (inp out1 out2 form : String) (b : List Byte) (d : List Nat)
    (hform : form ∈ argChoicesForm) (hin : fs inp = some (FsNode.file b))
    (hdec : utf8Decode b = some d)
    (hout1 : fs out1 ≠ some FsNode.dir) (hout2 : fs out2 ≠ some FsNode.dir)
    (hscalar : ∀ c ∈ nlib form (translateNewlines d), ScalarValue c)
    (hnocr : (13 : Nat) ∉ nlib form (translateNewlines d))
    (hidem : nlib form (nlib form (translateNewlines d)) = nlib form (translateNewlines d)) :
    (cliRun nlib fs inp out1 form).exitCode = 0 ∧
    (cliRun nlib fs inp out1 form).fs out1 =
      some (FsNode.file (utf8Encode (nlib form (translateNewlines d)))) ∧
    (cliRun nlib (cliRun nlib fs inp out1 form).fs out1 out2 form).exitCode = 0 ∧
    (cliRun nlib (cliRun nlib fs inp out1 form).fs out1 out2 form).fs out2 =
      some (FsNode.file (utf8Encode (nlib form (translateNewlines d)))) := by
  have h1 := cliRun_success nlib fs inp out1 form b d hform hin hdec hout1
  have hfs1out1 : (cliRun nlib fs inp out1 form).fs out1 =
      some (FsNode.file (utf8Encode (nlib form (translateNewlines d)))) := by
    rw [h1]; simp [FS.set]
  have hdec2 : utf8Decode (utf8Encode (nlib form (translateNewlines d))) =
      some (nlib form (translateNewlines d)) :=
    utf8Decode_utf8Encode (nlib form (translateNewlines d)) hscalar
  have htrans : translateNewlines (nlib form (translateNewlines d)) =
      nlib form (translateNewlines d) :=
    translateNewlines_eq_self (nlib form (translateNewlines d)) hnocr
  have hout2' : (cliRun nlib fs inp out1 form).fs out2 ≠ some FsNode.dir := by
    rw [h1]
    simp only [FS.set]
    by_cases he : out2 = out1
    · simp [he]
    · simp only [if_neg he]
      exact hout2
  have h2 := cliRun_success nlib (cliRun nlib fs inp out1 form).fs out1 out2 form
      (utf8Encode (nlib form (translateNewlines d))) (nlib form (translateNewlines d))
      hform hfs1out1 hdec2 hout2'
  refine ⟨by rw [h1], hfs1out1, by rw [h2], ?_⟩
  rw [h2]
  simp [FS.set, htrans, hidem]

/-- C6 (witness): both runs carried out concretely on the `cafe` plus
combining-acute input with form NFC, with the contract hypotheses checked
by evaluation on the concrete normalized content. -/
theorem C6_idempotent_witness :
    (∀ c ∈ unicodedataNormalize "NFC" (translateNewlines [0x63, 0x61, 0x66, 0x65, 0x301]),
       ScalarValue c) ∧
    (13 : Nat) ∉ unicodedataNormalize "NFC" (translateNewlines [0x63, 0x61, 0x66, 0x65, 0x301]) ∧
    unicodedataNormalize "NFC"
        (unicodedataNormalize "NFC" (translateNewlines [0x63, 0x61, 0x66, 0x65, 0x301])) =
      unicodedataNormalize "NFC" (translateNewlines [0x63, 0x61, 0x66, 0x65, 0x301]) ∧
    ((cliRun unicodedataNormalize fsCafe "in.txt" "out.txt" "NFC").exitCode = 0 ∧
     (cliRun unicodedataNormalize fsCafe "in.txt" "out.txt" "NFC").fs "out.txt" =
       some (FsNode.file (utf8Encode (unicodedataNormalize "NFC"
         (translateNewlines [0x63, 0x61, 0x66, 0x65, 0x301])))) ∧
     (cliRun unicodedataNormalize (cliRun unicodedataNormalize fsCafe "in.txt" "out.txt" "NFC").fs
         "out.txt" "out2.txt" "NFC").exitCode = 0 ∧
     (cliRun unicodedataNormalize (cliRun unicodedataNormalize fsCafe "in.txt" "out.txt" "NFC").fs
         "out.txt" "out2.txt" "NFC").fs "out2.txt" =
       some (FsNode.file (utf8Encode (unicodedataNormalize "NFC"
         (translateNewlines [0x63, 0x61, 0x66, 0x65, 0x301]))))) :=
  ⟨by decide, by decide, by decide,
   C6_idempotent unicodedataNormalize fsCafe "in.txt" "out.txt" "out2.txt" "NFC"
     [0x63, 0x61, 0x66, 0x65, 0xCC, 0x81] [0x63, 0x61, 0x66, 0x65, 0x301]
     (by decide) (by decide) (by decide) (by decide) (by decide)
     (by decide) (by decide) (by decide)⟩

/-- C7 (confirmed): the operation is deterministic as a function of input
content and form: two successful runs, possibly over different filesystems
and paths, whose input files hold the same bytes and which use the same
form, write identical output bytes. -/
theorem C7_deterministic (nlib : String → List Nat → List Nat)
    (fsa fsb : FS) (in1 in2 o1 o2 form : String) (b : List Byte)
    (hin1 : fsa in1 = some (FsNode.file b)) (hin2 : fsb in2 = some (FsNode.file b))
    (e1 : (cliRun nlib fsa in1 o1 form).exitCode = 0)
    (e2 : (cliRun nlib fsb in2 o2 form).exitCode = 0) :
    ∃ w, (cliRun nlib fsa in1 o1 form).fs o1 = some (FsNode.file w) ∧
         (cliRun nlib fsb in2 o2 form).fs o2 = some (FsNode.file w) := by
  obtain ⟨b1, d1, hf1, hb1, hdec1, hr1⟩ := cliRun_exit0_inversion nlib fsa in1 o1 form e1
  obtain ⟨b2, d2, hf2, hb2, hdec2, hr2⟩ := cliRun_exit0_inversion nlib fsb in2 o2 form e2
  rw [hin1] at hb1
  injection hb1 with hb1x
  injection hb1x with hb1y
  rw [hin2] at hb2
  injection hb2 with hb2x
  injection hb2x with hb2y
  rw [← hb1y] at hdec1
  rw [← hb2y] at hdec2
  rw [hdec1] at hdec2
  injection hdec2 with hd
  refine ⟨utf8Encode (nlib form (translateNewlines d1)), ?_, ?_⟩
  · rw [hr1]; simp [FS.set]
  · rw [hr2]; rw [← hd]; simp [FS.set]

/-- C7 (witness): the statement applied to two concrete runs over the same
content under different output paths. -/
theorem C7_deterministic_witness :
    fsCafe "in.txt" = some (FsNode.file [0x63, 0x61, 0x66, 0x65, 0xCC, 0x81]) ∧
    (cliRun unicodedataNormalize fsCafe "in.txt" "o1.txt" "NFC").exitCode = 0 ∧
    (cliRun unicodedataNormalize fsCafe "in.txt" "o2.txt" "NFC").exitCode = 0 ∧
    (∃ w, (cliRun unicodedataNormalize fsCafe "in.txt" "o1.txt" "NFC").fs "o1.txt" =
            some (FsNode.file w) ∧
          (cliRun unicodedataNormalize fsCafe "in.txt" "o2.txt" "NFC").fs "o2.txt" =
            some (FsNode.file w)) :=
  ⟨by decide, by decide, by decide,
   C7_deterministic unicodedataNormalize fsCafe fsCafe "in.txt" "in.txt" "o1.txt" "o2.txt"
     "NFC" [0x63, 0x61, 0x66, 0x65, 0xCC, 0x81] (by decide) (by decide)
     (by decide) (by decide)⟩

/-- C8 (confirmed): for the input text U+0063 U+0061 U+0066 U+0065 U+0301
(whose UTF-8 bytes are the content of `fsCafe`), the run with form NFC
succeeds with exit code 0 and writes the precomposed sequence U+0063 U+0061
U+0066 U+00E9 (bytes 63 61 66 C3 A9), and the run with form NFD succeeds
with exit code 0 and writes output byte-identical to the input. -/
theorem C8_cafe_scenario :
    utf8Encode [0x63, 0x61, 0x66, 0x65, 0x301] = [0x63, 0x61, 0x66, 0x65, 0xCC, 0x81] ∧
    (cliRun unicodedataNormalize fsCafe "in.txt" "out.txt" "NFC").exitCode = 0 ∧
    (cliRun unicodedataNormalize fsCafe "in.txt" "out.txt" "NFC").fs "out.txt" =
      some (FsNode.file (utf8Encode [0x63, 0x61, 0x66, 0xE9])) ∧
    (cliRun unicodedataNormalize fsCafe "in.txt" "out.txt" "NFD").exitCode = 0 ∧
    (cliRun unicodedataNormalize fsCafe "in.txt" "out.txt" "NFD").fs "out.txt" =
      some (FsNode.file [0x63, 0x61, 0x66, 0x65, 0xCC, 0x81]) ∧
    unicodedataNormalize "NFC" [0x63, 0x61, 0x66, 0x65, 0x301] = [0x63, 0x61, 0x66, 0xE9] ∧
    unicodedataNormalize "NFD" [0x63, 0x61, 0x66, 0x65, 0x301] =
      [0x63, 0x61, 0x66, 0x65, 0x301] := by
  refine ⟨by decide, by decide, by decide, by decide, by decide, by decide, by decide⟩

/-- C9 (confirmed): when the output path equals the input path and the run
would otherwise succeed (recognized form, regular input file, decodable
bytes), the run still exits 0 and the file is replaced in place by the
normalized content: the whole input is consumed before the output is opened,
so reading is unaffected by the overwrite. -/
theorem C9_in_place (nlib : String → List Nat → List Nat) (fs : FS)
    (p form : String) (b : List Byte) (d : List Nat)
    (hform : form ∈ argChoicesForm) (hin : fs p = some (FsNode.file b))
    (hdec : utf8Decode b = some d) :
    (cliRun nlib fs p p form).exitCode = 0 ∧
    (cliRun nlib fs p p form).fs p =
      some (FsNode.file (utf8Encode (nlib form (translateNewlines d)))) := by
  have h := cliRun_success nlib fs p p form b d hform hin hdec (by rw [hin]; simp)
  refine ⟨by rw [h], ?_⟩
  rw [h]
  simp [FS.set]

/-- C9 (witness): an in-place run on the concrete `cafe` input. -/
theorem C9_in_place_witness :
    "NFC" ∈ argChoicesForm ∧
    fsCafe "in.txt" = some (FsNode.file [0x63, 0x61, 0x66, 0x65, 0xCC, 0x81]) ∧
    utf8Decode [0x63, 0x61, 0x66, 0x65, 0xCC, 0x81] = some [0x63, 0x61, 0x66, 0x65, 0x301] ∧
    ((cliRun unicodedataNormalize fsCafe "in.txt" "in.txt" "NFC").exitCode = 0 ∧
     (cliRun unicodedataNormalize fsCafe "in.txt" "in.txt" "NFC").fs "in.txt" =
       some (FsNode.file (utf8Encode (unicodedataNormalize "NFC"
         (translateNewlines [0x63, 0x61, 0x66, 0x65, 0x301]))))) :=
  ⟨by decide, by decide, by decide,
   C9_in_place unicodedataNormalize fsCafe "in.txt" "NFC"
     [0x63, 0x61, 0x66, 0x65, 0xCC, 0x81] [0x63, 0x61, 0x66, 0x65, 0x301]
     (by decide) (by decide) (by decide)⟩

/-- C10 (confirmed): whenever the output path differs from the input path,
the input file's entry is unchanged by the run, on success and on every
failure: only the output path is ever opened for writing. -/
theorem C10_input_unchanged (nlib : String → List Nat → List Nat) (fs : FS)
    (inp out form : String) (hne : out ≠ inp) :
    (cliRun nlib fs inp out form).fs inp = fs inp :=
  cliRun_fs_frame nlib fs inp out form inp (fun he => hne he.symm)

/-- C10 (witness): the statement applied to a concrete successful run with
distinct input and output paths. -/
theorem C10_input_unchanged_witness :
    "out.txt" ≠ "in.txt" ∧
    (cliRun unicodedataNormalize fsCafe "in.txt" "out.txt" "NFC").fs "in.txt" =
      fsCafe "in.txt" :=
  ⟨by decide,
   C10_input_unchanged unicodedataNormalize fsCafe "in.txt" "out.txt" "NFC" (by decide)⟩
